import Mathlib

/-!
Verification development for the mgrs-map-app AOI subsystem
(src/src/components/CoordinateControl.tsx, src/unnamed/part_000).

The TypeScript source is shallowly embedded: numbers become ℚ, strings
become String, JS objects become structures, nondeterministic environment
calls (crypto.randomUUID, Date.now, new Date().toISOString, mgrs.forward,
mgrs.toPoint, Number.toFixed) become explicit parameters, and functions
that throw become Except-valued functions.
-/

namespace MgrsMap

/-- The AOI record of Map.tsx (`type AOI`, lines 138-146).  The transient,
never-persisted `layer` handle is omitted: it carries no data relevant to
the properties below, only a render-object reference. -/
structure AOI where
  id : String
  mgrsCoordinate : String
  dimensions : String
  bounds : List (ℚ × ℚ)
  name : String
  dateCreated : String
deriving DecidableEq, Repr

/-- GeoJSON `properties` of a feature, as read by `geoJSONToAOI`
(lines 225-230).  Each field is optional: `none` models an absent key
(or an absent `properties` object). -/
structure FeatureProps where
  id : Option String
  name : Option String
  mgrsCoordinate : Option String
  dimensions : Option String
  dateCreated : Option String
deriving DecidableEq, Repr

/-- A GeoJSON feature as consumed by the import code: `geomType` is
`feature.geometry.type` and `ring` is `feature.geometry.coordinates[0]`
(the only ring the code reads), holding (lon, lat) pairs in GeoJSON
order.  For non-Polygon geometries the code never touches coordinates,
so `ring` is simply unused there. -/
structure Feature where
  geomType : String
  ring : List (ℚ × ℚ)
  props : FeatureProps
deriving DecidableEq, Repr

/-- JavaScript `a || b` specialised to an optional string property:
an absent key and the empty string are both falsy and fall through to
the default. -/
def jsOr (o : Option String) (d : String) : String :=
  match o with
  | none => d
  | some s => if s = "" then d else s

/-- Mean of the `.lat` components of a LatLng list, as computed in
`handleCreated` line 669 (`reduce` of lats divided by length).  Pairs
are (lat, lng), matching Leaflet's LatLng field order. -/
def meanLat (vs : List (ℚ × ℚ)) : ℚ :=
  (vs.map Prod.fst).sum / vs.length

/-- Mean of the `.lng` components, `handleCreated` line 670. -/
def meanLng (vs : List (ℚ × ℚ)) : ℚ :=
  (vs.map Prod.snd).sum / vs.length

/-- One cross term of the shoelace sum. -/
def cross (p q : ℚ × ℚ) : ℚ :=
  p.1 * q.2 - q.1 * p.2

/-- Shoelace sum over the closed ring obtained by connecting the last
point back to `p0`. -/
def shoelaceAux (p0 : ℚ × ℚ) : List (ℚ × ℚ) → ℚ
  | [] => 0
  | [q] => cross q p0
  | q :: r :: t => cross q r + shoelaceAux p0 (r :: t)

/-- Signed shoelace sum of a vertex list (x, y), first vertex implicitly
closing the ring. -/
def shoelace : List (ℚ × ℚ) → ℚ
  | [] => 0
  | p :: rest => shoelaceAux p (p :: rest)

/-- Modelled from the spec: `calculatePolygonArea` is called at
`handleCreated` line 678 but defined nowhere under src/.  Spec §4.2
(`planarArea`): "computes signed polygon area via the shoelace formula
treating lat/lon degrees as if locally planar after a meters-per-degree
scale correction at the polygon's mean latitude; returns absolute
value."  We scale longitudes by 111320·cos(meanLat) meters/degree and
latitudes by 111320 meters/degree (the standard WGS-84 figure), then
apply the shoelace formula.  The cosine, not computable on ℚ, is an
explicit parameter `cosDeg` (degrees → ℚ); theorems about concrete
areas hypothesise rational bounds on its value. -/
def calculatePolygonArea (cosDeg : ℚ → ℚ) (vs : List (ℚ × ℚ)) : ℚ :=
  let mLat : ℚ := 111320
  let mLng : ℚ := 111320 * cosDeg (meanLat vs)
  let pts := vs.map (fun p => (p.2 * mLng, p.1 * mLat))
  abs (shoelace pts) / 2

/-- `handleCreated` (lines 658-693): builds the AOI stored for a finished
draw gesture.  `fwd` models `mgrs.forward`, `fmt` models
`Number.toFixed(2)`, `uuid` the `randomUUID()` result, `nowStr` the
`new Date().toISOString()` result, `aois` the collection at the time of
the event, and `latLngs` the drawn vertices as (lat, lng) pairs. -/
def handleCreated (fwd : ℚ → ℚ → String) (cosDeg : ℚ → ℚ) (fmt : ℚ → String)
    (uuid nowStr : String) (aois : List AOI) (latLngs : List (ℚ × ℚ)) : AOI :=
  { id := uuid
    name := "AOI " ++ toString (aois.length + 1)
    mgrsCoordinate := fwd (meanLat latLngs) (meanLng latLngs)
    dimensions := fmt (calculatePolygonArea cosDeg latLngs) ++ " sq m"
    bounds := latLngs.map (fun p => (p.2, p.1))
    dateCreated := nowStr }

/-- The rectangle of the concrete scenario, as (lat, lng) pairs. -/
def rectVertices : List (ℚ × ℚ) :=
  [(45, -100), (45, -99), (46, -99), (46, -100)]

/-- `aoiToGeoJSON` (lines 196-211): emits a Polygon feature whose single
ring is `aoi.bounds` with each pair swapped, and copies the five scalar
fields into `properties` (all present, as plain strings). -/
def aoiToGeoJSON (aoi : AOI) : Feature :=
  { geomType := "Polygon"
    ring := aoi.bounds.map (fun c => (c.2, c.1))
    props :=
      { id := some aoi.id
        name := some aoi.name
        mgrsCoordinate := some aoi.mgrsCoordinate
        dimensions := some aoi.dimensions
        dateCreated := some aoi.dateCreated } }

/-- `geoJSONToAOI` (lines 214-232): throws unless the geometry is a
Polygon, swaps each ring pair back, and fills falsy properties with
defaults — `freshId` models the `randomUUID()` call and `nowStr` the
`new Date().toISOString()` call. -/
def geoJSONToAOI (freshId nowStr : String) (f : Feature) : Except String AOI :=
  if f.geomType ≠ "Polygon" then
    .error "Only Polygon geometries are supported"
  else
    .ok
      { id := jsOr f.props.id freshId
        name := jsOr f.props.name "Imported AOI"
        mgrsCoordinate := jsOr f.props.mgrsCoordinate ""
        dimensions := jsOr f.props.dimensions ""
        bounds := f.ring.map (fun c => (c.2, c.1))
        dateCreated := jsOr f.props.dateCreated nowStr }

/-- `features.map(geoJSONToAOI)` with JS exception semantics: the first
throwing element aborts the whole map.  `fresh i` supplies the id the
i-th `randomUUID()` call would return. -/
def mapGeoJSONToAOI (fresh : ℕ → String) (nowStr : String) :
    ℕ → List Feature → Except String (List AOI)
  | _, [] => .ok []
  | i, f :: rest =>
    match geoJSONToAOI (fresh i) nowStr f with
    | .error e => .error e
    | .ok a =>
      match mapGeoJSONToAOI fresh nowStr (i + 1) rest with
      | .error e => .error e
      | .ok as => .ok (a :: as)

/-- Whether a feature's geometry is a Polygon — the filter predicate of
`importGeoJSON` line 278. -/
def isPolygonFeature (f : Feature) : Bool :=
  f.geomType == "Polygon"

/-- The feature-processing core of the standalone `importGeoJSON`
function (lines 267-286), after JSON parsing: an empty feature list is
an error, non-Polygon features are filtered out, the rest are converted,
and zero surviving features is an error.  On success `importGeoJSON`
calls `setAois(importedAois)`, REPLACING the collection with the result
returned here. -/
def importGeoJSONFeatures (fresh : ℕ → String) (nowStr : String)
    (fs : List Feature) : Except String (List AOI) :=
  if fs.isEmpty then
    .error "No valid features found in GeoJSON"
  else
    match mapGeoJSONToAOI fresh nowStr 0 (fs.filter isPolygonFeature) with
    | .error e => .error e
    | .ok imported =>
      if imported.isEmpty then
        .error "No Polygon features found in GeoJSON"
      else
        .ok imported

/-- `handleImport` (lines 805-820) — the same code the Import button of
the modal runs inline (lines 568-584): maps `geoJSONToAOI` over ALL
features of the parsed file with no Polygon filter, then appends; any
exception is caught and leaves the collection unchanged (an alert is
shown). -/
def handleImport (fresh : ℕ → String) (nowStr : String)
    (aois : List AOI) (fs : List Feature) : List AOI :=
  match mapGeoJSONToAOI fresh nowStr 0 fs with
  | .error _ => aois
  | .ok newAois => aois ++ newAois

/-- `storage.load` (lines 181-192): `stored` is the value under the
fixed key (`none` when absent), `parse` models `JSON.parse` followed by
the implicit cast to `AOI[]` (`.error` when `JSON.parse` throws).  Both
the absent-key case and the parse failure return the empty collection;
the function is total, so no error ever reaches the caller. -/
def storageLoad (parse : String → Except String (List AOI))
    (stored : Option String) : List AOI :=
  match stored with
  | none => []
  | some s =>
    match parse s with
    | .error _ => []
    | .ok v => v

/-- Whitespace as recognised by JavaScript `String.prototype.trim`
(restricted to the common ASCII whitespace characters). -/
def isJsSpace (c : Char) : Bool :=
  c == ' ' || c == '\t' || c == '\n' || c == '\r'

/-- JavaScript `s.trim()`: strip leading and trailing whitespace. -/
def jsTrim (s : String) : String :=
  String.mk ((((s.data.dropWhile isJsSpace).reverse).dropWhile isJsSpace).reverse)

/-- `saveEdit` (lines 626-636), the rename path: when an inline edit on
`editingId` is committed with text `editingName`, the matching AOI keeps
its old name if the text trims to empty and otherwise gets the trimmed
text (`editingName.trim() || aoi.name`); every other AOI is returned
unchanged. -/
def saveEdit (editingId : Option String) (editingName : String)
    (aois : List AOI) : List AOI :=
  match editingId with
  | none => aois
  | some eid =>
    aois.map fun aoi =>
      if aoi.id = eid then
        { aoi with name := if jsTrim editingName = "" then aoi.name else jsTrim editingName }
      else aoi

/-- `handleEdit` (lines 444-458), the boundary-edit path: the AOI whose
id equals `selectedAoiId` gets its `bounds` replaced by the edited
vertices; nothing else changes and no derived field is recomputed. -/
def handleEdit (selectedAoiId : Option String) (newBounds : List (ℚ × ℚ))
    (aois : List AOI) : List AOI :=
  aois.map fun aoi =>
    if selectedAoiId = some aoi.id then { aoi with bounds := newBounds } else aoi

/-- The square bounds built by `addAOI` (lines 712-717) around the
point `mgrs.toPoint` returned — NOTE the source stores the pairs
latitude-first: `[lat - 0.01, lng - 0.01]` etc. -/
def addAOIBounds (lng lat : ℚ) : List (ℚ × ℚ) :=
  [ (lat - 1/100, lng - 1/100)
  , (lat - 1/100, lng + 1/100)
  , (lat + 1/100, lng + 1/100)
  , (lat + 1/100, lng - 1/100) ]

/-- The AOI built by `addAOI` (lines 705-733) for manual MGRS entry:
`nowMs` models `Date.now()` (the id is its decimal string), `dateStr`
models `new Date().toISOString()`, and (`lng`, `lat`) the point
`mgrs.toPoint(mgrsInput)` parsed (a parse failure alerts and changes
nothing, so only successful parses reach this constructor). -/
def addAOIRecord (nowMs : ℕ) (dateStr : String) (lng lat : ℚ)
    (mgrsInput : String) (aois : List AOI) : AOI :=
  { id := toString nowMs
    mgrsCoordinate := mgrsInput
    dimensions := ""
    bounds := addAOIBounds lng lat
    name := "AOI " ++ toString (aois.length + 1)
    dateCreated := dateStr }

/-- The mutable UI state relevant to the collection and selection:
`aois` is the `useState<AOI[]>` array and `selectedAoiId` the
`useState<string | null>` selection. -/
structure MapState where
  aois : List AOI
  selectedAoiId : Option String
deriving DecidableEq, Repr

/-- The empty initial state (`useState<AOI[]>([])`,
`useState<string | null>(null)`). -/
def initialState : MapState := { aois := [], selectedAoiId := none }

/-- User events that mutate the collection or the selection.  Each
creation event carries the values its environment calls would produce
(`uuid` for `randomUUID()`, `nowMs` for `Date.now()`, `dateStr` for
`new Date().toISOString()`, (`lng`, `lat`) for a successful
`mgrs.toPoint`); a failed MGRS parse alerts and produces no event. -/
inductive Event where
  | drawCreated (uuid dateStr : String) (latLngs : List (ℚ × ℚ))
  | manualAdd (nowMs : ℕ) (dateStr : String) (lng lat : ℚ) (mgrsInput : String)
  | panelClick (id : String)
  | mapClick
  | deleteOne (confirm : Bool) (id : String)
  | deleteEverything (confirm : Bool)
deriving DecidableEq, Repr

/-- One step of the UI state:
* `drawCreated` appends `handleCreated`'s AOI (lines 684-687);
* `manualAdd` appends `addAOIRecord`'s AOI unless the input is the
  empty string (`if (!mgrsInput) return`, line 706);
* `panelClick` toggles the selection on that id (lines 951-953);
* `mapClick` clears the selection (`handleMapClick`, lines 770-774;
  the `isEditing` guard is irrelevant to the properties proved here
  since the guarded branch changes nothing);
* `deleteOne` with confirmation filters the id out of the collection
  (`deleteAOI`, lines 695-703) — it does NOT touch `selectedAoiId`;
* `deleteEverything` with confirmation empties the collection
  (lines 929-932) — it does NOT touch `selectedAoiId` either. -/
def step (fwd : ℚ → ℚ → String) (cosDeg : ℚ → ℚ) (fmt : ℚ → String)
    (s : MapState) : Event → MapState
  | .drawCreated uuid dateStr latLngs =>
    { s with aois := s.aois ++ [handleCreated fwd cosDeg fmt uuid dateStr s.aois latLngs] }
  | .manualAdd nowMs dateStr lng lat mgrsInput =>
    if mgrsInput = "" then s
    else { s with aois := s.aois ++ [addAOIRecord nowMs dateStr lng lat mgrsInput s.aois] }
  | .panelClick id =>
    { s with selectedAoiId := if s.selectedAoiId = some id then none else some id }
  | .mapClick => { s with selectedAoiId := none }
  | .deleteOne confirm id =>
    if confirm then { s with aois := s.aois.filter (fun aoi => aoi.id ≠ id) } else s
  | .deleteEverything confirm =>
    if confirm then { s with aois := [] } else s

/-- Run a list of events from a state. -/
def run (fwd : ℚ → ℚ → String) (cosDeg : ℚ → ℚ) (fmt : ℚ → String)
    (s : MapState) : List Event → MapState
  | [] => s
  | e :: rest => run fwd cosDeg fmt (step fwd cosDeg fmt s e) rest

/-- The ids currently in the collection, in display order. -/
def idsOf (s : MapState) : List String :=
  s.aois.map AOI.id

/-- The id a creation event generates (`none` for non-creating events). -/
def eventId : Event → Option String
  | .drawCreated uuid _ _ => some uuid
  | .manualAdd nowMs _ _ _ mgrsInput => if mgrsInput = "" then none else some (toString nowMs)
  | _ => none

/-- A trace is id-fresh from `s` when every creation event's generated
id is absent from the collection at the moment the event fires. -/
def freshTrace (fwd : ℚ → ℚ → String) (cosDeg : ℚ → ℚ) (fmt : ℚ → String)
    (s : MapState) : List Event → Bool
  | [] => true
  | e :: rest =>
    (match eventId e with
     | none => true
     | some i => !(idsOf s).contains i)
    && freshTrace fwd cosDeg fmt (step fwd cosDeg fmt s e) rest

/-- Stub MGRS encoder used to instantiate theorems on concrete runs. -/
def fwdStub : ℚ → ℚ → String := fun _ _ => "14TPP5395038558"

/-- Stub cosine used to instantiate theorems on concrete runs. -/
def cosStub : ℚ → ℚ := fun _ => 7/10

/-- Stub `toFixed(2)` formatter used to instantiate theorems. -/
def fmtStub : ℚ → String := fun _ => "0.00"

/-- Stub JSON parser used to instantiate storage theorems: accepts the
serialized empty collection, rejects everything else. -/
def parseStub : String → Except String (List AOI) :=
  fun s => if s = "[]" then .ok [] else .error "SyntaxError"

/-- A concrete AOI whose `name` is the empty string, used to probe the
GeoJSON round trip. -/
def emptyNameAoi : AOI :=
  { id := "x"
    mgrsCoordinate := "14TPP5395038558"
    dimensions := "12345.00 sq m"
    bounds := [(1, 2), (3, 4), (5, 6)]
    name := ""
    dateCreated := "2024-06-01T00:00:00.000Z" }

/-- A concrete Polygon feature with no properties, the ring of the
concrete import scenario (lon, lat order). -/
def polyFeature : Feature :=
  { geomType := "Polygon"
    ring := [(-99, 45), (-99, 46), (-98, 46), (-98, 45), (-99, 45)]
    props := { id := none, name := none, mgrsCoordinate := none
               dimensions := none, dateCreated := none } }

/-- A concrete Point feature, the non-importable feature of the
concrete import scenario. -/
def pointFeature : Feature :=
  { geomType := "Point"
    ring := []
    props := { id := none, name := none, mgrsCoordinate := none
               dimensions := none, dateCreated := none } }

/-- Stub `randomUUID` supply for import runs. -/
def freshStub : ℕ → String := fun n => "uuid-" ++ toString n

/-- Two manual MGRS additions whose `Date.now()` calls land in the same
millisecond, so both ids are the string "5". -/
def sameMillisecondTrace : List Event :=
  [ .manualAdd 5 "2024-06-01T00:00:00.000Z" 0 0 "14TPP5395038558"
  , .manualAdd 5 "2024-06-01T00:00:00.000Z" 1 1 "14TPP5395038558" ]

/-- Draw an AOI with id "a", select it from the panel, then delete it
with the confirmation accepted. -/
def deleteSelectedTrace : List Event :=
  [ .drawCreated "a" "2024-06-01T00:00:00.000Z" [(0, 0), (0, 1), (1, 1)]
  , .panelClick "a"
  , .deleteOne true "a" ]

end MgrsMap

namespace MgrsMap

theorem meanLat_rect : meanLat rectVertices = 91 / 2 := by
  simp [meanLat, rectVertices]
  norm_num

theorem meanLng_rect : meanLng rectVertices = -(199 / 2) := by
  simp [meanLng, rectVertices]
  norm_num

theorem calcArea_rect (cosDeg : ℚ → ℚ) (h : 0 ≤ cosDeg (91 / 2)) :
    calculatePolygonArea cosDeg rectVertices = 12392142400 * cosDeg (91 / 2) := by
  have hm := meanLat_rect
  simp only [calculatePolygonArea, hm]
  simp only [rectVertices, List.map, shoelace, shoelaceAux, cross]
  ring_nf
  rw [abs_of_nonneg (by positivity)]
  ring

/-- Claim C1: an AOI created from a finished draw gesture stores as its
`mgrsCoordinate` the codec image of the planar centroid (arithmetic mean
of vertex latitudes and of vertex longitudes); on the concrete rectangle
(45,-100),(45,-99),(46,-99),(46,-100) the centroid is (45.5, -99.5) and
the `dimensions` string formats a planar area strictly between 10^9 and
10^11 square meters (concretely 12392142400·cos 45.5° ≈ 8.7·10^9),
given rational bounds 0.7 ≤ cos 45.5° ≤ 0.71 on the modelled cosine. -/
theorem c1_draw_centroid_and_area (fwd : ℚ → ℚ → String) (cosDeg : ℚ → ℚ)
    (fmt : ℚ → String) (uuid dateStr : String) (aois : List AOI)
    (vs : List (ℚ × ℚ)) (hne : vs ≠ [])
    (hc1 : 7 / 10 ≤ cosDeg (91 / 2)) (hc2 : cosDeg (91 / 2) ≤ 71 / 100) :
    (handleCreated fwd cosDeg fmt uuid dateStr aois vs).mgrsCoordinate
        = fwd (meanLat vs) (meanLng vs)
    ∧ (handleCreated fwd cosDeg fmt uuid dateStr aois rectVertices).mgrsCoordinate
        = fwd (91 / 2) (-(199 / 2))
    ∧ (handleCreated fwd cosDeg fmt uuid dateStr aois rectVertices).dimensions
        = fmt (calculatePolygonArea cosDeg rectVertices) ++ " sq m"
    ∧ 10 ^ 9 < calculatePolygonArea cosDeg rectVertices
    ∧ calculatePolygonArea cosDeg rectVertices < 10 ^ 11 := by
  have h0 : 0 ≤ cosDeg (91 / 2) := le_trans (by norm_num) hc1
  have ha := calcArea_rect cosDeg h0
  refine ⟨rfl, ?_, rfl, ?_, ?_⟩
  · show fwd (meanLat rectVertices) (meanLng rectVertices) = fwd (91 / 2) (-(199 / 2))
    rw [meanLat_rect, meanLng_rect]
  · rw [ha]; linarith
  · rw [ha]; linarith

/-- Witness for C1 at the concrete rectangle with stub environment. -/
theorem c1_draw_centroid_and_area_witness :
    (handleCreated fwdStub cosStub fmtStub "u" "d" [] rectVertices).mgrsCoordinate
        = fwdStub (91 / 2) (-(199 / 2))
    ∧ 10 ^ 9 < calculatePolygonArea cosStub rectVertices := by
  have h := c1_draw_centroid_and_area fwdStub cosStub fmtStub "u" "d" []
    [(1, 2)] (by simp) (by norm_num [cosStub]) (by norm_num [cosStub])
  exact ⟨h.2.1, h.2.2.2.1⟩

/-- Claim C9: `storage.load` returns the empty collection when the fixed
key is absent and when the stored payload fails to parse; being a total
function into `List AOI`, it never propagates an error to the caller. -/
theorem c9_load_malformed_is_empty (parse : String → Except String (List AOI))
    (stored : Option String) :
    (stored = none → storageLoad parse stored = [])
    ∧ (∀ s e, stored = some s → parse s = .error e → storageLoad parse stored = []) := by
  constructor
  · intro h; subst h; rfl
  · intro s e hs hp; subst hs; simp [storageLoad, hp]

/-- Witness for C9: the absent key and a malformed payload both load as
the empty collection under the stub parser. -/
theorem c9_load_malformed_is_empty_witness :
    storageLoad parseStub none = []
    ∧ storageLoad parseStub (some "not json") = [] := by
  refine ⟨(c9_load_malformed_is_empty parseStub none).1 rfl, ?_⟩
  exact (c9_load_malformed_is_empty parseStub (some "not json")).2
    "not json" "SyntaxError" rfl (by simp [parseStub])

/-- Claim C7: committing a rename with text that trims to empty leaves
the collection unchanged; otherwise exactly the matching AOI gets the
trimmed text as its new name and no other field of it — and no other
AOI — changes (the result is a pointwise record update of `name`
only). -/
theorem c7_rename_trim (aois : List AOI) (eid : String) (nm : String) :
    (jsTrim nm = "" → saveEdit (some eid) nm aois = aois)
    ∧ (jsTrim nm ≠ "" →
        saveEdit (some eid) nm aois
          = aois.map fun aoi =>
              if aoi.id = eid then { aoi with name := jsTrim nm } else aoi) := by
  constructor
  · intro h
    show aois.map _ = aois
    have heq : (fun aoi : AOI =>
        if aoi.id = eid then
          { aoi with name := if jsTrim nm = "" then aoi.name else jsTrim nm }
        else aoi) = fun aoi => aoi := by
      funext aoi
      simp [h]
    rw [heq, List.map_id']
  · intro h
    show aois.map _ = aois.map _
    simp [h]

/-- Witness for C7: renaming id "x" to "  " keeps the old name, renaming
it to " new " stores "new". -/
theorem c7_rename_trim_witness :
    saveEdit (some "x") "  " [emptyNameAoi] = [emptyNameAoi]
    ∧ saveEdit (some "x") " new " [emptyNameAoi]
        = [{ emptyNameAoi with name := "new" }] := by
  constructor
  · exact (c7_rename_trim [emptyNameAoi] "x" "  ").1 (by decide)
  · have h := (c7_rename_trim [emptyNameAoi] "x" " new ").2 (by decide)
    rw [h]
    simp [emptyNameAoi]
    decide

theorem swap_swap_map (l : List (ℚ × ℚ)) :
    (l.map (fun c => (c.2, c.1))).map (fun c => (c.2, c.1)) = l := by
  rw [List.map_map]
  have : ((fun c : ℚ × ℚ => (c.2, c.1)) ∘ fun c : ℚ × ℚ => (c.2, c.1)) = id := by
    funext c
    rfl
  rw [this, List.map_id]

/-- Claim C8: a boundary edit on the selected AOI replaces exactly its
`bounds` with the edited vertices and leaves its id, name,
mgrsCoordinate, dimensions and dateCreated untouched (no recomputation
of the derived fields); every AOI whose id is not the selected one is
returned unchanged, and the collection keeps its length and order. -/
theorem c8_boundary_edit_frame (aois : List AOI) (sel : Option String)
    (nb : List (ℚ × ℚ)) (i : ℕ) (h : i < aois.length) :
    (handleEdit sel nb aois).length = aois.length
    ∧ ((handleEdit sel nb aois).get ⟨i, by simpa [handleEdit] using h⟩).id
        = (aois.get ⟨i, h⟩).id
    ∧ ((handleEdit sel nb aois).get ⟨i, by simpa [handleEdit] using h⟩).name
        = (aois.get ⟨i, h⟩).name
    ∧ ((handleEdit sel nb aois).get ⟨i, by simpa [handleEdit] using h⟩).mgrsCoordinate
        = (aois.get ⟨i, h⟩).mgrsCoordinate
    ∧ ((handleEdit sel nb aois).get ⟨i, by simpa [handleEdit] using h⟩).dimensions
        = (aois.get ⟨i, h⟩).dimensions
    ∧ ((handleEdit sel nb aois).get ⟨i, by simpa [handleEdit] using h⟩).dateCreated
        = (aois.get ⟨i, h⟩).dateCreated
    ∧ (sel = some (aois.get ⟨i, h⟩).id →
        ((handleEdit sel nb aois).get ⟨i, by simpa [handleEdit] using h⟩).bounds = nb)
    ∧ (sel ≠ some (aois.get ⟨i, h⟩).id →
        (handleEdit sel nb aois).get ⟨i, by simpa [handleEdit] using h⟩
          = aois.get ⟨i, h⟩) := by
  have hget : (handleEdit sel nb aois).get ⟨i, by simpa [handleEdit] using h⟩
      = if sel = some (aois.get ⟨i, h⟩).id
        then { aois.get ⟨i, h⟩ with bounds := nb }
        else aois.get ⟨i, h⟩ := by
    simp [handleEdit, List.get_map]
  refine ⟨by simp [handleEdit], ?_, ?_, ?_, ?_, ?_, ?_, ?_⟩
  · rw [hget]; split <;> rfl
  · rw [hget]; split <;> rfl
  · rw [hget]; split <;> rfl
  · rw [hget]; split <;> rfl
  · rw [hget]; split <;> rfl
  · intro hsel; rw [hget, if_pos hsel]
  · intro hsel; rw [hget, if_neg hsel]

/-- Witness for C8: editing the boundary of the selected AOI "x" in a
two-AOI collection replaces its bounds and keeps the other AOI. -/
theorem c8_boundary_edit_frame_witness :
    (handleEdit (some "x") [(7, 8), (9, 10), (11, 12)]
        [emptyNameAoi, { emptyNameAoi with id := "y" }]).length = 2
    ∧ ((handleEdit (some "x") [(7, 8), (9, 10), (11, 12)]
        [emptyNameAoi, { emptyNameAoi with id := "y" }]).get
          ⟨0, by simp [handleEdit]⟩).bounds = [(7, 8), (9, 10), (11, 12)]
    ∧ (handleEdit (some "x") [(7, 8), (9, 10), (11, 12)]
        [emptyNameAoi, { emptyNameAoi with id := "y" }]).get
          ⟨1, by simp [handleEdit]⟩ = { emptyNameAoi with id := "y" } := by
  have h0 := c8_boundary_edit_frame
    [emptyNameAoi, { emptyNameAoi with id := "y" }] (some "x")
    [(7, 8), (9, 10), (11, 12)] 0 (by norm_num)
  have h1 := c8_boundary_edit_frame
    [emptyNameAoi, { emptyNameAoi with id := "y" }] (some "x")
    [(7, 8), (9, 10), (11, 12)] 1 (by norm_num)
  refine ⟨h0.1, ?_, ?_⟩
  · exact h0.2.2.2.2.2.2.1 (by simp [emptyNameAoi])
  · exact h1.2.2.2.2.2.2.2 (by simp [emptyNameAoi])

/-- Claim C10: `geoJSONToAOI` treats any present-but-falsy property as
missing, each property independently of the others — on a Polygon
feature, an absent or empty-string `id` alone yields the freshly
generated id, an absent or empty-string `name` alone yields "Imported
AOI", and an absent or empty-string `dateCreated` alone yields the
current time, whatever the remaining properties hold. -/
theorem c10_falsy_props_replaced (freshId nowStr : String) (f : Feature)
    (hp : f.geomType = "Polygon") :
    ((f.props.id = none ∨ f.props.id = some "") →
      ∃ a, geoJSONToAOI freshId nowStr f = .ok a ∧ a.id = freshId)
    ∧ ((f.props.name = none ∨ f.props.name = some "") →
      ∃ a, geoJSONToAOI freshId nowStr f = .ok a ∧ a.name = "Imported AOI")
    ∧ ((f.props.dateCreated = none ∨ f.props.dateCreated = some "") →
      ∃ a, geoJSONToAOI freshId nowStr f = .ok a ∧ a.dateCreated = nowStr) := by
  have hok : geoJSONToAOI freshId nowStr f
      = .ok { id := jsOr f.props.id freshId
              mgrsCoordinate := jsOr f.props.mgrsCoordinate ""
              dimensions := jsOr f.props.dimensions ""
              bounds := f.ring.map (fun c => (c.2, c.1))
              name := jsOr f.props.name "Imported AOI"
              dateCreated := jsOr f.props.dateCreated nowStr } := by
    simp [geoJSONToAOI, hp]
  refine ⟨?_, ?_, ?_⟩ <;> intro h
  · exact ⟨_, hok, by rcases h with h | h <;> simp [jsOr, h]⟩
  · exact ⟨_, hok, by rcases h with h | h <;> simp [jsOr, h]⟩
  · exact ⟨_, hok, by rcases h with h | h <;> simp [jsOr, h]⟩

/-- Witness for C10, one falsy property at a time: a Polygon feature
with id "" but non-empty name and dateCreated gets the fresh id "F";
one with only the name empty gets "Imported AOI"; one with only
dateCreated absent gets the current time "N". -/
theorem c10_falsy_props_replaced_witness :
    (∃ a, geoJSONToAOI "F" "N"
        { polyFeature with props :=
            { id := some "", name := some "Bob", mgrsCoordinate := some "M"
              dimensions := some "D", dateCreated := some "T" } } = .ok a
      ∧ a.id = "F")
    ∧ (∃ a, geoJSONToAOI "F" "N"
        { polyFeature with props :=
            { id := some "x", name := some "", mgrsCoordinate := some "M"
              dimensions := some "D", dateCreated := some "T" } } = .ok a
      ∧ a.name = "Imported AOI")
    ∧ (∃ a, geoJSONToAOI "F" "N"
        { polyFeature with props :=
            { id := some "x", name := some "Bob", mgrsCoordinate := some "M"
              dimensions := some "D", dateCreated := none } } = .ok a
      ∧ a.dateCreated = "N") := by
  refine ⟨?_, ?_, ?_⟩
  · exact (c10_falsy_props_replaced "F" "N" _ (by simp [polyFeature])).1
      (by simp)
  · exact (c10_falsy_props_replaced "F" "N" _ (by simp [polyFeature])).2.1
      (by simp)
  · exact (c10_falsy_props_replaced "F" "N" _ (by simp [polyFeature])).2.2
      (by simp)

/-- Counterexample to claim C2 as stated: the AOI `emptyNameAoi` has
three vertices and a non-empty id, yet `toFeature` followed by
`fromFeature` does not reproduce it — its empty `name` is replaced by
"Imported AOI", so not all properties survive the round trip. -/
theorem c2_roundtrip_counterexample :
    geoJSONToAOI "F" "N" (aoiToGeoJSON emptyNameAoi)
        = .ok { emptyNameAoi with name := "Imported AOI" }
    ∧ geoJSONToAOI "F" "N" (aoiToGeoJSON emptyNameAoi) ≠ .ok emptyNameAoi := by
  constructor
  · simp [geoJSONToAOI, aoiToGeoJSON, jsOr, emptyNameAoi]
  · intro hc
    have h1 : geoJSONToAOI "F" "N" (aoiToGeoJSON emptyNameAoi)
        = .ok { emptyNameAoi with name := "Imported AOI" } := by
      simp [geoJSONToAOI, aoiToGeoJSON, jsOr, emptyNameAoi]
    rw [h1] at hc
    have := Except.ok.inj hc
    simpa [emptyNameAoi] using congrArg AOI.name this

/-- Claim C2 amended: `toFeature` then `fromFeature` always reproduces
the vertex sequence (the lon/lat swap applied twice is the identity) and
the `mgrsCoordinate` and `dimensions` properties; `id`, `name` and
`dateCreated` are reproduced exactly when non-empty, while an
empty-string id is replaced by a fresh id, an empty-string name by
"Imported AOI" and an empty-string dateCreated by the current time. -/
theorem c2_roundtrip_amended (aoi : AOI) (freshId nowStr : String)
    (hlen : 3 ≤ aoi.bounds.length) :
    ∃ a, geoJSONToAOI freshId nowStr (aoiToGeoJSON aoi) = .ok a
      ∧ a.bounds = aoi.bounds
      ∧ a.mgrsCoordinate = aoi.mgrsCoordinate
      ∧ a.dimensions = aoi.dimensions
      ∧ a.id = (if aoi.id = "" then freshId else aoi.id)
      ∧ a.name = (if aoi.name = "" then "Imported AOI" else aoi.name)
      ∧ a.dateCreated = (if aoi.dateCreated = "" then nowStr else aoi.dateCreated) := by
  refine ⟨{ id := jsOr (some aoi.id) freshId
            mgrsCoordinate := jsOr (some aoi.mgrsCoordinate) ""
            dimensions := jsOr (some aoi.dimensions) ""
            bounds := (aoi.bounds.map (fun c => (c.2, c.1))).map (fun c => (c.2, c.1))
            name := jsOr (some aoi.name) "Imported AOI"
            dateCreated := jsOr (some aoi.dateCreated) nowStr }, ?_, ?_, ?_, ?_, ?_, ?_, ?_⟩
  · simp [geoJSONToAOI, aoiToGeoJSON]
  · exact swap_swap_map aoi.bounds
  · show jsOr (some aoi.mgrsCoordinate) "" = aoi.mgrsCoordinate
    unfold jsOr; split <;> simp_all
  · show jsOr (some aoi.dimensions) "" = aoi.dimensions
    unfold jsOr; split <;> simp_all
  · show jsOr (some aoi.id) freshId = if aoi.id = "" then freshId else aoi.id
    rfl
  · show jsOr (some aoi.name) "Imported AOI" = if aoi.name = "" then "Imported AOI" else aoi.name
    rfl
  · show jsOr (some aoi.dateCreated) nowStr = if aoi.dateCreated = "" then nowStr else aoi.dateCreated
    rfl

/-- Witness for C2 amended: the round trip on `emptyNameAoi` (three
vertices, empty name) keeps bounds, mgrsCoordinate, dimensions, id and
dateCreated, and substitutes the default name. -/
theorem c2_roundtrip_amended_witness :
    ∃ a, geoJSONToAOI "F" "N" (aoiToGeoJSON emptyNameAoi) = .ok a
      ∧ a.bounds = emptyNameAoi.bounds
      ∧ a.id = (if emptyNameAoi.id = "" then "F" else emptyNameAoi.id)
      ∧ a.name = (if emptyNameAoi.name = "" then "Imported AOI" else emptyNameAoi.name) := by
  obtain ⟨a, h1, h2, _, _, h5, h6, _⟩ :=
    c2_roundtrip_amended emptyNameAoi "F" "N" (by simp [emptyNameAoi])
  exact ⟨a, h1, h2, h5, h6⟩

theorem mapGeoJSONToAOI_ok_of_all_poly (fresh : ℕ → String) (nowStr : String) :
    ∀ (fs : List Feature) (i : ℕ), (∀ f ∈ fs, isPolygonFeature f = true) →
      ∃ l, mapGeoJSONToAOI fresh nowStr i fs = .ok l ∧ l.length = fs.length := by
  intro fs
  induction fs with
  | nil => intro i _; exact ⟨[], rfl, rfl⟩
  | cons f t ih =>
    intro i hall
    have hf : ¬(f.geomType ≠ "Polygon") := by
      have := hall f (by simp)
      simpa [isPolygonFeature] using this
    obtain ⟨l, hl, hlen⟩ := ih (i + 1) (fun g hg => hall g (by simp [hg]))
    cases hok : geoJSONToAOI (fresh i) nowStr f with
    | error e =>
      exfalso
      revert hok
      simp [geoJSONToAOI, hf]
    | ok a =>
      exact ⟨a :: l, by simp [mapGeoJSONToAOI, hok, hl], by simp [hlen]⟩

theorem mapGeoJSONToAOI_error_of_nonpoly (fresh : ℕ → String) (nowStr : String) :
    ∀ (fs : List Feature) (i : ℕ) (f : Feature), f ∈ fs → isPolygonFeature f = false →
      ∃ e, mapGeoJSONToAOI fresh nowStr i fs = .error e := by
  intro fs
  induction fs with
  | nil => intro i f hf; cases hf
  | cons g t ih =>
    intro i f hf hnp
    rcases List.mem_cons.mp hf with heq | hmem
    · subst heq
      have hg : f.geomType ≠ "Polygon" := by simpa [isPolygonFeature] using hnp
      exact ⟨"Only Polygon geometries are supported",
        by simp [mapGeoJSONToAOI, geoJSONToAOI, hg]⟩
    · cases hok : geoJSONToAOI (fresh i) nowStr g with
      | error e => exact ⟨e, by simp [mapGeoJSONToAOI, hok]⟩
      | ok a =>
        obtain ⟨e, he⟩ := ih (i + 1) f hmem hnp
        exact ⟨e, by simp [mapGeoJSONToAOI, hok, he]⟩

/-- Counterexample to claim C3 as stated: importing a FeatureCollection
holding one Polygon feature and one Point feature through the
wired import handler (`handleImport`, the modal's inline Import
code) adds NO AOI at all — the unfiltered `geoJSONToAOI` throws on the
Point, the exception is caught and the collection stays unchanged — so
the import does not yield exactly one new AOI. -/
theorem c3_import_counterexample :
    handleImport freshStub "N" [] [polyFeature, pointFeature] = []
    ∧ (handleImport freshStub "N" [] [polyFeature, pointFeature]).length ≠ 1 := by
  have h : mapGeoJSONToAOI freshStub "N" 0 [polyFeature, pointFeature]
      = .error "Only Polygon geometries are supported" := by
    simp [mapGeoJSONToAOI, geoJSONToAOI, polyFeature, pointFeature]
  constructor
  · simp [handleImport, h]
  · simp [handleImport, h]

/-- Claim C3 amended: the skip-non-Polygons behaviour lives only in the
standalone `importGeoJSONFeatures` pipeline (the unused `importGeoJSON`
function): there, every non-Polygon feature is silently dropped, each
Polygon feature becomes one AOI, and the import fails exactly when zero
Polygon features remain (on success it replaces, not appends, the
collection).  The import handler actually wired to the UI converts every
feature unfiltered, so the presence of ANY non-Polygon feature makes the
whole import fail and appends no AOI. -/
theorem c3_import_amended (fresh : ℕ → String) (nowStr : String)
    (aois : List AOI) (fs : List Feature) :
    (fs.filter isPolygonFeature ≠ [] →
      ∃ l, importGeoJSONFeatures fresh nowStr fs = .ok l
        ∧ l.length = (fs.filter isPolygonFeature).length)
    ∧ (fs ≠ [] → fs.filter isPolygonFeature = [] →
      importGeoJSONFeatures fresh nowStr fs
        = .error "No Polygon features found in GeoJSON")
    ∧ (∀ f ∈ fs, isPolygonFeature f = false →
      handleImport fresh nowStr aois fs = aois) := by
  refine ⟨?_, ?_, ?_⟩
  · intro hne
    have hfs : fs ≠ [] := by
      intro h
      exact hne (by simp [h])
    obtain ⟨l, hl, hlen⟩ := mapGeoJSONToAOI_ok_of_all_poly fresh nowStr
      (fs.filter isPolygonFeature) 0 (fun f hf => List.of_mem_filter hf)
    have hlne : l ≠ [] := by
      intro h
      apply hne
      rw [← List.length_eq_zero]
      rw [← hlen, h]
      rfl
    refine ⟨l, ?_, hlen⟩
    simp [importGeoJSONFeatures, hfs, hl, hlne]
  · intro hfs hfilter
    simp [importGeoJSONFeatures, hfs, hfilter, mapGeoJSONToAOI]
  · intro f hf hnp
    obtain ⟨e, he⟩ := mapGeoJSONToAOI_error_of_nonpoly fresh nowStr fs 0 f hf hnp
    simp [handleImport, he]

/-- Witness for C3 amended, on the concrete scenario features: the
standalone pipeline imports exactly one AOI from [Polygon, Point], while
the wired handler leaves the collection untouched. -/
theorem c3_import_amended_witness :
    (∃ l, importGeoJSONFeatures freshStub "N" [polyFeature, pointFeature] = .ok l
      ∧ l.length = ([polyFeature, pointFeature].filter isPolygonFeature).length)
    ∧ handleImport freshStub "N" [emptyNameAoi] [polyFeature, pointFeature]
        = [emptyNameAoi] := by
  have h := c3_import_amended freshStub "N" [emptyNameAoi] [polyFeature, pointFeature]
  refine ⟨h.1 (by simp [isPolygonFeature, polyFeature, pointFeature]), ?_⟩
  exact h.2.2 pointFeature (by simp) (by simp [isPolygonFeature, pointFeature])

/-- Counterexample to claim C4 as stated: two manual MGRS additions
whose `Date.now()` calls return the same millisecond value both get the
id "5", so after this creation sequence the ids in the collection are
NOT pairwise distinct — the code derives manual-entry ids from the
clock with no uniqueness check. -/
theorem c4_unique_ids_counterexample :
    ¬ (idsOf (run fwdStub cosStub fmtStub initialState sameMillisecondTrace)).Nodup := by
  decide

theorem nodup_step (fwd : ℚ → ℚ → String) (cosDeg : ℚ → ℚ) (fmt : ℚ → String)
    (s : MapState) (e : Event)
    (h0 : (idsOf s).Nodup)
    (hf : ∀ i, eventId e = some i → i ∉ idsOf s) :
    (idsOf (step fwd cosDeg fmt s e)).Nodup := by
  cases e with
  | drawCreated uuid dateStr latLngs =>
    have hu : uuid ∉ idsOf s := hf uuid rfl
    have heq : idsOf (step fwd cosDeg fmt s (.drawCreated uuid dateStr latLngs))
        = idsOf s ++ [uuid] := by
      simp [step, idsOf, handleCreated]
    rw [heq, List.nodup_append]
    exact ⟨h0, by simp, by simpa [List.disjoint_singleton] using hu⟩
  | manualAdd nowMs dateStr lng lat mgrsInput =>
    by_cases hm : mgrsInput = ""
    · simpa [step, hm] using h0
    · have hu : toString nowMs ∉ idsOf s := hf (toString nowMs) (by simp [eventId, hm])
      have heq : idsOf (step fwd cosDeg fmt s (.manualAdd nowMs dateStr lng lat mgrsInput))
          = idsOf s ++ [toString nowMs] := by
        simp [step, hm, idsOf, addAOIRecord]
      rw [heq, List.nodup_append]
      exact ⟨h0, by simp, by simpa [List.disjoint_singleton] using hu⟩
  | panelClick id => exact h0
  | mapClick => exact h0
  | deleteOne confirm id =>
    by_cases hc : confirm
    · have hsub : List.Sublist
          ((s.aois.filter (fun aoi => aoi.id ≠ id)).map AOI.id)
          (s.aois.map AOI.id) :=
        (List.filter_sublist s.aois).map AOI.id
      have heq : idsOf (step fwd cosDeg fmt s (.deleteOne confirm id))
          = (s.aois.filter (fun aoi => aoi.id ≠ id)).map AOI.id := by
        simp [step, hc, idsOf]
      rw [heq]
      exact h0.sublist hsub
    · simpa [step, hc] using h0
  | deleteEverything confirm =>
    by_cases hc : confirm
    · simp [step, hc, idsOf]
    · simpa [step, hc] using h0

/-- Claim C4 amended: the Repository never checks new ids against the
collection, so pairwise distinctness of ids is NOT unconditional (see
the same-millisecond counterexample); it holds after any sequence of
creations (draw or manual) and deletions provided every generated id
(`randomUUID()` result or `Date.now()` string) is fresh — absent from
the collection at the moment its creation event fires.  Deletions and
selection clicks always preserve distinctness. -/
theorem c4_unique_ids_amended (fwd : ℚ → ℚ → String) (cosDeg : ℚ → ℚ)
    (fmt : ℚ → String) (tr : List Event) (s : MapState)
    (h0 : (idsOf s).Nodup)
    (hf : freshTrace fwd cosDeg fmt s tr = true) :
    (idsOf (run fwd cosDeg fmt s tr)).Nodup := by
  induction tr generalizing s with
  | nil => exact h0
  | cons e rest ih =>
    rw [freshTrace] at hf
    simp only [Bool.and_eq_true] at hf
    obtain ⟨h1, h2⟩ := hf
    refine ih (step fwd cosDeg fmt s e) (nodup_step fwd cosDeg fmt s e h0 ?_) h2
    intro i hi
    rw [hi] at h1
    simpa using h1

/-- Witness for C4 amended: two manual additions in distinct
milliseconds (ids "5" and "6") leave the collection with pairwise
distinct ids. -/
theorem c4_unique_ids_amended_witness :
    (idsOf (run fwdStub cosStub fmtStub initialState
      [ .manualAdd 5 "d" 0 0 "14TPP5395038558"
      , .manualAdd 6 "d" 1 1 "14TPP5395038558" ])).Nodup := by
  exact c4_unique_ids_amended fwdStub cosStub fmtStub _ initialState
    (by decide) (by decide)

/-- Counterexample to claim C6 as stated: draw an AOI with id "a",
select it in the panel, then delete it with the confirmation accepted —
the collection becomes empty but `selectedAoiId` still holds the stale
id "a": neither `deleteAOI` nor the delete-all handler ever clears the
selection variable. -/
theorem c6_selection_counterexample :
    (run fwdStub cosStub fmtStub initialState deleteSelectedTrace).selectedAoiId = some "a"
    ∧ (run fwdStub cosStub fmtStub initialState deleteSelectedTrace).aois = []
    ∧ (some "a" : Option String) ≠ none := by
  refine ⟨?_, ?_, by simp⟩
  · decide
  · decide

theorem countP_selected_le_one (l : List AOI) (sel : Option String)
    (h : (l.map AOI.id).Nodup) :
    l.countP (fun a => sel == some a.id) ≤ 1 := by
  cases sel with
  | none =>
    have : l.countP (fun a => (none : Option String) == some a.id) = 0 :=
      List.countP_eq_zero.mpr (fun a _ => by simp)
    simp [this]
  | some x =>
    have h1 : l.countP (fun a => (some x : Option String) == some a.id)
        = l.countP (fun a => a.id == x) := by
      apply List.countP_congr
      intro a _
      show ((some x : Option String) == some a.id) = true ↔ (a.id == x) = true
      simp only [beq_iff_eq, Option.some_inj]
      exact eq_comm
    have h2 : l.countP (fun a => a.id == x) = (l.map AOI.id).count x := by
      rw [List.count, List.countP_map]
      rfl
    rw [h1, h2]
    exact List.nodup_iff_count_le_one.mp h x

/-- Claim C6 amended: deleting the selected AOI (and delete-all) leaves
the `selectedAoiId` variable UNCHANGED — the stale id survives — but no
AOI remaining in the collection carries the deleted id (so no existing
AOI is selected afterwards, and delete-all leaves an empty collection);
and whenever the collection's ids are pairwise distinct, at most one AOI
matches the single optional selection id. -/
theorem c6_selection_amended (fwd : ℚ → ℚ → String) (cosDeg : ℚ → ℚ)
    (fmt : ℚ → String) (s : MapState) (idv : String) :
    (step fwd cosDeg fmt s (.deleteOne true idv)).selectedAoiId = s.selectedAoiId
    ∧ (step fwd cosDeg fmt s (.deleteEverything true)).selectedAoiId = s.selectedAoiId
    ∧ (∀ a ∈ (step fwd cosDeg fmt s (.deleteOne true idv)).aois, a.id ≠ idv)
    ∧ (step fwd cosDeg fmt s (.deleteEverything true)).aois = []
    ∧ ((idsOf s).Nodup →
        s.aois.countP (fun a => s.selectedAoiId == some a.id) ≤ 1) := by
  refine ⟨rfl, rfl, ?_, rfl, ?_⟩
  · intro a ha
    have hmem : a ∈ s.aois.filter (fun aoi => aoi.id ≠ idv) := by
      simpa [step] using ha
    exact of_decide_eq_true (List.mem_filter.mp hmem).2
  · intro h
    exact countP_selected_le_one s.aois s.selectedAoiId h

/-- Witness for C6 amended, at a concrete one-AOI state with the AOI
selected: deleting it keeps the stale selection, empties the matching
entries, and the at-most-one-selected bound holds. -/
theorem c6_selection_amended_witness :
    (step fwdStub cosStub fmtStub { aois := [emptyNameAoi], selectedAoiId := some "x" }
        (.deleteOne true "x")).selectedAoiId = some "x"
    ∧ (∀ a ∈ (step fwdStub cosStub fmtStub
        { aois := [emptyNameAoi], selectedAoiId := some "x" }
        (.deleteOne true "x")).aois, a.id ≠ "x")
    ∧ ([emptyNameAoi] : List AOI).countP
        (fun a => (some "x" : Option String) == some a.id) ≤ 1 := by
  have h := c6_selection_amended fwdStub cosStub fmtStub
    { aois := [emptyNameAoi], selectedAoiId := some "x" } "x"
  exact ⟨h.1, h.2.2.1, h.2.2.2.2 (by decide)⟩

/-- Counterexample to claim C5 as stated: on manual MGRS entry of a
point with longitude 10 and latitude 50, the first stored vertex is
(50 − 0.01, 10 − 0.01) = (49.99, 9.99) — latitude first — which is none
of the four (lon, lat)-ordered corners of the synthesized 0.01° square,
so the manual-entry path does not store (longitude, latitude) pairs. -/
theorem c5_storage_order_counterexample :
    (addAOIBounds 10 50).head? = some (50 - 1/100, 10 - 1/100)
    ∧ ((50 : ℚ) - 1/100, (10 : ℚ) - 1/100) ∉
        ([ (10 - 1/100, 50 - 1/100), (10 + 1/100, 50 - 1/100)
         , (10 + 1/100, 50 + 1/100), (10 - 1/100, 50 + 1/100) ] : List (ℚ × ℚ)) := by
  constructor
  · rfl
  · intro hmem
    simp only [List.mem_cons, List.not_mem_nil, or_false] at hmem
    rcases hmem with h | h | h | h <;>
      exact absurd (congrArg Prod.fst h) (by norm_num)

/-- Claim C5 amended: the three creation paths do NOT share one storage
order.  The draw path stores each vertex as (longitude, latitude); the
manual MGRS-entry path stores the square's corners latitude-first; the
GeoJSON import path swaps the (lon, lat) ring into (latitude, longitude)
pairs. -/
theorem c5_storage_order_amended (fwd : ℚ → ℚ → String) (cosDeg : ℚ → ℚ)
    (fmt : ℚ → String) (uuid dateStr : String) (aois : List AOI)
    (vs : List (ℚ × ℚ)) (i : ℕ) (hi : i < vs.length)
    (nowMs : ℕ) (mdateStr : String) (lng lat : ℚ) (mgrsInput : String)
    (freshId nowStr : String) (f : Feature) (hp : f.geomType = "Polygon") :
    (handleCreated fwd cosDeg fmt uuid dateStr aois vs).bounds.get
        ⟨i, by simpa [handleCreated] using hi⟩
      = ((vs.get ⟨i, hi⟩).2, (vs.get ⟨i, hi⟩).1)
    ∧ (addAOIRecord nowMs mdateStr lng lat mgrsInput aois).bounds
      = [ (lat - 1/100, lng - 1/100), (lat - 1/100, lng + 1/100)
        , (lat + 1/100, lng + 1/100), (lat + 1/100, lng - 1/100) ]
    ∧ ∃ a, geoJSONToAOI freshId nowStr f = .ok a
        ∧ a.bounds = f.ring.map (fun c => (c.2, c.1)) := by
  refine ⟨?_, rfl, ?_⟩
  · simp [handleCreated, List.get_map]
  · refine ⟨{ id := jsOr f.props.id freshId
              mgrsCoordinate := jsOr f.props.mgrsCoordinate ""
              dimensions := jsOr f.props.dimensions ""
              bounds := f.ring.map (fun c => (c.2, c.1))
              name := jsOr f.props.name "Imported AOI"
              dateCreated := jsOr f.props.dateCreated nowStr }, ?_, rfl⟩
    simp [geoJSONToAOI, hp]

/-- Witness for C5 amended at concrete inputs: a one-vertex draw list
(lat 45, lng −100) stores (−100, 45), and the concrete Polygon feature
passes the geometry guard. -/
theorem c5_storage_order_amended_witness :
    (handleCreated fwdStub cosStub fmtStub "u" "d" [] [(45, -100)]).bounds.get
        ⟨0, by simp [handleCreated]⟩ = (-100, 45)
    ∧ (addAOIRecord 5 "d" 10 50 "14TPP5395038558" []).bounds
      = [ (50 - 1/100, 10 - 1/100), (50 - 1/100, 10 + 1/100)
        , (50 + 1/100, 10 + 1/100), (50 + 1/100, 10 - 1/100) ]
    ∧ ∃ a, geoJSONToAOI "F" "N" polyFeature = .ok a
        ∧ a.bounds = polyFeature.ring.map (fun c => (c.2, c.1)) := by
  have h := c5_storage_order_amended fwdStub cosStub fmtStub "u" "d" []
    [(45, -100)] 0 (by norm_num) 5 "d" 10 50 "14TPP5395038558" "F" "N"
    polyFeature (by simp [polyFeature])
  exact ⟨h.1, h.2.1, h.2.2⟩

end MgrsMap
